import Mathlib

/-!
Shallow embedding of the DuckDuckGo search tool
(`DuckDuckGoSearchTool` / `DuckDuckGoSearchToolOutput`) and proofs about
its configuration merging, pagination, truncation, normalization and
snapshot behaviour.

JavaScript objects are modelled as association lists with JS spread
semantics: for `\x7b...a, ...b\x7d` a later binding of a key wins, so lookup
returns the value of the last binding of the key.
-/

set_option autoImplicit false

namespace DDG

/-- The safe-search enum of the duck-duck-scrape backend. -/
inductive SafeSearchType where
  | strict
  | moderate
  | off
  deriving DecidableEq, Repr

/-- A JavaScript value as it occurs in the option objects of the tool:
numbers, strings, booleans, `undefined`, a proxying transport agent
(`new HttpsProxyAgent(url)`, identified by its proxy url), a header map and
a safe-search level. -/
inductive JsVal where
  | num (n : Int)
  | str (s : String)
  | bool (b : Bool)
  | jsUndefined
  | proxyAgent (url : String)
  | headerMap (hs : List (String × String))
  | safeSearch (t : SafeSearchType)
  deriving DecidableEq, Repr

/-- A JavaScript object, as an association list of bindings in insertion
order; a later binding of the same key shadows an earlier one. -/
abbrev Obj := List (String × JsVal)

/-- A header map (header name to header value). -/
abbrev HMap := List (String × String)

/-- Lookup where the LAST binding of a key wins, matching the semantics of
JavaScript object literals built with spreads and assignments. -/
def getLast? {α : Type} : List (String × α) → String → Option α
  | [], _ => none
  | (k, v) :: rest, key =>
    (getLast? rest key).or (if k = key then some v else none)

/-- The object spread `\x7b...a, ...b\x7d`: bindings of `b` come later, so on a
key collision `b` wins under `getLast?`. -/
def spread {α : Type} (a b : List (String × α)) : List (String × α) := a ++ b

/-- The property assignment `o.key = v` (and `o["key"] = v`): afterwards the
lookup of `key` yields `v` and every other key is unchanged. -/
def setKey {α : Type} (o : List (String × α)) (key : String) (v : α) :
    List (String × α) := o ++ [(key, v)]

/-- A raw result as returned by the search backend: `\x7btitle, description,
url\x7d` with possibly-markup-bearing title and description. -/
structure RawResult where
  title : String
  description : String
  url : String
  deriving DecidableEq, Repr

/-- `DuckDuckGoSearchToolResult`: a normalized result. -/
structure DuckDuckGoSearchToolResult where
  title : String
  description : String
  url : String
  deriving DecidableEq, Repr

/-- `DuckDuckGoSearchToolOutput`: the tool output wrapping the ordered
results sequence. -/
structure DuckDuckGoSearchToolOutput where
  results : List DuckDuckGoSearchToolResult
  deriving DecidableEq, Repr

/-- The snapshot structure produced by `createSnapshot`. -/
structure Snapshot where
  results : List DuckDuckGoSearchToolResult
  deriving DecidableEq, Repr

/-- `DuckDuckGoSearchToolOutput.createSnapshot`: returns `\x7b results: this.results \x7d`. -/
def createSnapshot (o : DuckDuckGoSearchToolOutput) : Snapshot :=
  { results := o.results }

/-- `DuckDuckGoSearchToolOutput.loadSnapshot`: `Object.assign(this, snapshot)`
overwrites the `results` field of the instance with the snapshot's field,
verbatim. -/
def loadSnapshot (o : DuckDuckGoSearchToolOutput) (s : Snapshot) :
    DuckDuckGoSearchToolOutput :=
  { o with results := s.results }

/-- The `throttle` field of the tool options: `ThrottleOptions | false`
or not provided at all (`undefined`). `ThrottleOptions` carries optional
`limit` and `interval` fields. -/
inductive ThrottleConfig where
  | notProvided
  | disabled
  | opts (limit : Option Int) (interval : Option Int)
  deriving DecidableEq, Repr

/-- The client built by `_createClient`: either the raw backend function
(unthrottled passthrough) or the backend wrapped by a `pThrottle` gate with
the given limit and interval. -/
inductive Client where
  | passthrough
  | throttled (limit : Int) (interval : Int)
  deriving DecidableEq, Repr

/-- `DuckDuckGoSearchTool._createClient`: `throttle === false` yields the raw
backend; otherwise a throttle gate with `limit: throttle?.limit ?? 1` and
`interval: throttle?.interval ?? 3000` is wrapped around it. -/
def createClient (throttle : ThrottleConfig) : Client :=
  match throttle with
  | .disabled => .passthrough
  | .notProvided => .throttled 1 3000
  | .opts limit interval => .throttled (limit.getD 1) (interval.getD 3000)

/-- `DuckDuckGoSearchToolOptions` after construction. `undefined` option
objects behave as empty objects under spread, so they are modelled as `[]`;
`apiKey` and `http_proxy_url` keep their optionality. -/
structure DDGOptions where
  search : Obj := []
  throttle : ThrottleConfig := .notProvided
  httpClientOptions : Obj := []
  maxResultsPerPage : Int
  apiKey : Option String := none
  http_proxy_url : Option String := none
  deriving DecidableEq, Repr

/-- The constructor's option normalization:
`\x7b ...options, maxResultsPerPage: options?.maxResultsPerPage ?? 15 \x7d` —
only `maxResultsPerPage` is defaulted, every other field is passed through. -/
def mkDDGOptions (search : Obj) (throttle : ThrottleConfig)
    (httpClientOptions : Obj) (maxResultsPerPage : Option Int)
    (apiKey : Option String) (http_proxy_url : Option String) : DDGOptions :=
  { search := search
    throttle := throttle
    httpClientOptions := httpClientOptions
    maxResultsPerPage := maxResultsPerPage.getD 15
    apiKey := apiKey
    http_proxy_url := http_proxy_url }

/-- `DuckDuckGoSearchToolRunOptions`: per-invocation overrides; either object
may be absent. -/
structure RunOptions where
  search : Option Obj := none
  httpClientOptions : Option Obj := none
  deriving DecidableEq, Repr

/-! ### Input schema (zod model)

`inputSchema` builds
`z.object(\x7b query: z.string().min(1).max(128), page:
z.coerce.number().int().min(1).max(10).default(1).optional() \x7d)`.
The raw `query` field is a string or some non-string value; the raw `page`
field is a number, a string whose JavaScript `Number()` coercion is a given
number, a string that coerces to `NaN`, or absent. -/

/-- A raw `query` field before validation. -/
inductive QueryRaw where
  | str (s : String)
  | notString
  deriving DecidableEq, Repr

/-- A raw `page` field before validation. `strNum q` is a string whose
`Number()` coercion is the number `q`; `strNaN` is a string that coerces to
`NaN`. -/
inductive PageRaw where
  | num (q : Rat)
  | strNum (q : Rat)
  | strNaN
  | absent
  deriving DecidableEq, Repr

/-- The `Number()` coercion performed by `z.coerce.number()`, when the raw
page is present. -/
def PageRaw.toNumber : PageRaw → Option Rat
  | .num q => some q
  | .strNum q => some q
  | .strNaN => none
  | .absent => none

/-- `z.string().min(1).max(128)` applied to the raw query field. -/
def parseQuery : QueryRaw → Except String String
  | .notString => .error "invalid_type"
  | .str s =>
    if s.length < 1 then .error "string_too_small"
    else if 128 < s.length then .error "string_too_big"
    else .ok s

/-- The `number().int().min(1).max(10)` checks applied to a coerced page
number: reject non-integers, reject values below 1 or above 10, otherwise
return the integer. -/
def zodPageChecks (q : Rat) : Except String Int :=
  if q.den ≠ 1 then .error "not_int"
  else if q.num < 1 then .error "number_too_small"
  else if 10 < q.num then .error "number_too_big"
  else .ok q.num

/-- The full page pipeline `z.coerce.number().int().min(1).max(10)
.default(1).optional()`: an absent field passes through as absent (the
outermost `optional` short-circuits), a present field is coerced and
checked. -/
def parsePage : PageRaw → Except String (Option Int)
  | .absent => .ok none
  | .num q => (zodPageChecks q).map some
  | .strNum q => (zodPageChecks q).map some
  | .strNaN => .error "nan"

/-- The raw tool input object. -/
structure RawInput where
  query : QueryRaw
  page : PageRaw
  deriving DecidableEq, Repr

/-- Validation of the whole input object against `inputSchema`. -/
def parseInput (raw : RawInput) : Except String (String × Option Int) :=
  match parseQuery raw.query with
  | .error e => .error e
  | .ok q =>
    match parsePage raw.page with
    | .error e => .error e
    | .ok p => .ok (q, p)

/-! ### The run pipeline -/

/-- Model of the `string-strip-html` collaborator: removes every `<`...`>`
tag span from the text, keeping the text outside tags. -/
def stripHtmlChars : List Char → Bool → List Char
  | [], _ => []
  | c :: cs, true => if c = '>' then stripHtmlChars cs false else stripHtmlChars cs true
  | c :: cs, false =>
    if c = '<' then stripHtmlChars cs true else c :: stripHtmlChars cs false

/-- `stripHtml(text).result` of the text-sanitization collaborator. -/
def stripHtml (s : String) : String := ⟨stripHtmlChars s.data false⟩

/-- The normalization of one retained raw result inside `_run`:
`\x7b title: stripHtml(title).result, description: stripHtml(description).result,
url \x7d`. -/
def normalizeResult (r : RawResult) : DuckDuckGoSearchToolResult :=
  { title := stripHtml r.title
    description := stripHtml r.description
    url := r.url }

/-- The header set after the optional API-key injection: when an API key is
configured, `headers["Authorization"] = "Bearer " + key` is assigned into
the generated header set. -/
def buildHeaders (generated : HMap) (apiKey : Option String) : HMap :=
  match apiKey with
  | none => generated
  | some key => setKey generated "Authorization" ("Bearer " ++ key)

/-- The merged HTTP client options of `_run`:
`\x7b ...this.options?.httpClientOptions, ...options?.httpClientOptions \x7d`,
then, when a proxy url is configured,
`httpClientOptions.agent = new HttpsProxyAgent(url)`. -/
def mergedHttpOptions (cfg : DDGOptions) (ro : RunOptions) : Obj :=
  let merged := spread cfg.httpClientOptions (ro.httpClientOptions.getD [])
  match cfg.http_proxy_url with
  | none => merged
  | some url => setKey merged "agent" (.proxyAgent url)

/-- The search options passed to the client:
`\x7b offset: maxResultsPerPage * (page - 1), safeSearch: MODERATE,
...this.options.search, ...options?.search \x7d`. -/
def builtSearchOptions (cfg : DDGOptions) (page : Int) (ro : RunOptions) : Obj :=
  spread
    (spread
      [("offset", .num (cfg.maxResultsPerPage * (page - 1))),
       ("safeSearch", .safeSearch .moderate)]
      cfg.search)
    (ro.search.getD [])

/-- The `user_agent` transport option: `headers["user-agent"]`, `undefined`
when the header set carries no user-agent entry. -/
def userAgentVal (headers : HMap) : JsVal :=
  match getLast? headers "user-agent" with
  | some ua => .str ua
  | none => .jsUndefined

/-- The transport options passed to the client:
`\x7b headers, user_agent: headers["user-agent"], ...httpClientOptions \x7d`
with the merged HTTP client options spread last. -/
def builtTransportOptions (cfg : DDGOptions) (generated : HMap)
    (ro : RunOptions) : Obj :=
  spread
    [("headers", .headerMap (buildHeaders generated cfg.apiKey)),
     ("user_agent", userAgentVal (buildHeaders generated cfg.apiKey))]
    (mergedHttpOptions cfg ro)

/-- The search backend collaborator:
`search(query, searchOptions, transportOptions)` yielding `\x7bresults\x7d`. -/
abbrev Backend := String → Obj → Obj → List RawResult

/-- The truncation step of `_run`: `if (results.length > maxResultsPerPage)
results.length = maxResultsPerPage`, i.e. keep only the first
`maxResultsPerPage` entries when the backend returned more. -/
def truncateResults (maxResultsPerPage : Int) (results : List RawResult) :
    List RawResult :=
  if (results.length : Int) > maxResultsPerPage then
    results.take maxResultsPerPage.toNat
  else results

/-- `DuckDuckGoSearchTool._run` on validated input: build headers, merge
HTTP options, call the backend with the built search and transport options,
truncate the raw results and normalize each retained one. `generated` is
the header set produced by the Header/Identity Provider; the destructuring
default `page = 1` applies when the validated page is absent. -/
def tool_run (cfg : DDGOptions) (generated : HMap) (backend : Backend)
    (query : String) (pageOpt : Option Int) (ro : RunOptions) :
    DuckDuckGoSearchToolOutput :=
  let page := pageOpt.getD 1
  let results :=
    backend query (builtSearchOptions cfg page ro)
      (builtTransportOptions cfg generated ro)
  { results := (truncateResults cfg.maxResultsPerPage results).map normalizeResult }

/-- The result of a whole `run` invocation. -/
inductive RunResult where
  | validationError (msg : String)
  | success (out : DuckDuckGoSearchToolOutput)
  deriving DecidableEq, Repr

/-- Modelled from the spec: the framework base class `Tool` (imported from
`@/tools/base.js`, whose source is not part of this repository slice)
validates the raw input against `inputSchema` before any other activity and
invokes `_run` only on success — "a validation failure produces zero side
effects and zero outbound calls". The second component counts the outbound
calls to the Search Backend: `0` on a validation failure, `1` when `_run`
runs (its single backend call). -/
def toolRun (cfg : DDGOptions) (generated : HMap) (backend : Backend)
    (raw : RawInput) (ro : RunOptions) : RunResult × Nat :=
  match parseInput raw with
  | .error msg => (.validationError msg, 0)
  | .ok (query, pageOpt) =>
    (.success (tool_run cfg generated backend query pageOpt ro), 1)

/-! ### Helper lemmas -/

theorem getLast?_append {α : Type} (a b : List (String × α)) (k : String) :
    getLast? (a ++ b) k = (getLast? b k).or (getLast? a k) := by
  induction a with
  | nil => rw [List.nil_append, show getLast? ([] : List (String × α)) k = none from rfl,
      Option.or_none]
  | cons p rest ih =>
    obtain ⟨pk, pv⟩ := p
    show (getLast? (rest ++ b) k).or _ = (getLast? b k).or ((getLast? rest k).or _)
    rw [ih, Option.or_assoc]

theorem getLast?_singleton {α : Type} (k key : String) (v : α) :
    getLast? [(k, v)] key = if k = key then some v else none := rfl

theorem getLast?_setKey_self {α : Type} (o : List (String × α)) (k : String)
    (v : α) : getLast? (setKey o k v) k = some v := by
  rw [setKey, getLast?_append, getLast?_singleton, if_pos rfl]
  rfl

theorem getLast?_setKey_ne {α : Type} (o : List (String × α)) (k k' : String)
    (v : α) (hne : k' ≠ k) : getLast? (setKey o k v) k' = getLast? o k' := by
  rw [setKey, getLast?_append, getLast?_singleton, if_neg (Ne.symm hne)]
  rfl

theorem truncateResults_eq_take (m : Int) (hm : 0 ≤ m) (rs : List RawResult) :
    truncateResults m rs = rs.take m.toNat := by
  unfold truncateResults
  by_cases h : (rs.length : Int) > m
  · rw [if_pos h]
  · rw [if_neg h]
    have hlen : rs.length ≤ m.toNat := by
      have := Int.toNat_of_nonneg hm
      omega
    exact (List.take_of_length_le hlen).symm

theorem tool_run_results (cfg : DDGOptions) (generated : HMap)
    (backend : Backend) (query : String) (pageOpt : Option Int)
    (ro : RunOptions) :
    (tool_run cfg generated backend query pageOpt ro).results =
      (truncateResults cfg.maxResultsPerPage
        (backend query (builtSearchOptions cfg (pageOpt.getD 1) ro)
          (builtTransportOptions cfg generated ro))).map normalizeResult := rfl

/-! ### Concrete fixtures used by witnesses and counterexamples -/

/-- A tool configuration with a results-per-page cap of 2 and no other
options. -/
def cfg2 : DDGOptions := { maxResultsPerPage := 2 }

/-- Empty per-invocation run options. -/
def ro0 : RunOptions := {}

/-- A stub backend returning no results. -/
def bk0 : Backend := fun _ _ _ => []

/-- Three raw results, more than `cfg2`'s cap. -/
def rs3 : List RawResult :=
  [{ title := "a", description := "b", url := "u1" },
   { title := "c", description := "d", url := "u2" },
   { title := "e", description := "f", url := "u3" }]

theorem zodPageChecks_ok (q : Rat) (hint : q.den = 1) (h1 : 1 ≤ q.num)
    (h10 : q.num ≤ 10) : zodPageChecks q = .ok q.num := by
  unfold zodPageChecks
  rw [if_neg (by simp [hint]), if_neg (not_lt.mpr h1), if_neg (not_lt.mpr h10)]

theorem zodPageChecks_isError (q : Rat) (h : q < 1 ∨ 10 < q) :
    ∃ e, zodPageChecks q = .error e := by
  unfold zodPageChecks
  by_cases hden : q.den = 1
  · have hq : (q.num : Rat) = q := (Rat.den_eq_one_iff q).mp hden
    rcases h with h | h
    · have hn : q.num < 1 := by
        have hc : (q.num : Rat) < 1 := by rw [hq]; exact h
        exact_mod_cast hc
      rw [if_neg (by simp [hden]), if_pos hn]
      exact ⟨_, rfl⟩
    · have hn : 10 < q.num := by
        have hc : (10 : Rat) < (q.num : Rat) := by rw [hq]; exact h
        exact_mod_cast hc
      rw [if_neg (by simp [hden]), if_neg (by omega), if_pos hn]
      exact ⟨_, rfl⟩
  · rw [if_pos hden]
    exact ⟨_, rfl⟩

theorem zodPageChecks_nonint (r : Rat) (h : r.den ≠ 1) :
    zodPageChecks r = .error "not_int" := by
  unfold zodPageChecks
  rw [if_pos h]

theorem zodPageChecks_complete (r : Rat) (n : Int)
    (h : zodPageChecks r = .ok n) : r = (n : Rat) ∧ 1 ≤ n ∧ n ≤ 10 := by
  unfold zodPageChecks at h
  by_cases hden : r.den = 1
  · rw [if_neg (by simp [hden])] at h
    by_cases hlt : r.num < 1
    · rw [if_pos hlt] at h
      exact Except.noConfusion h
    · rw [if_neg hlt] at h
      by_cases hgt : 10 < r.num
      · rw [if_pos hgt] at h
        exact Except.noConfusion h
      · rw [if_neg hgt] at h
        have hn : r.num = n := by injection h
        refine ⟨?_, by omega, by omega⟩
        rw [← hn]
        exact ((Rat.den_eq_one_iff r).mp hden).symm
  · rw [if_pos hden] at h
    exact Except.noConfusion h

/-! ### Claims -/

/-- C1: for every backend response, if the raw results sequence is longer
than `maxResultsPerPage` then the returned output contains exactly
`maxResultsPerPage` results, preserving the original relative order of the
first `maxResultsPerPage` entries; if the raw sequence has at most
`maxResultsPerPage` entries, the output length equals the input length. -/
theorem run_truncation (cfg : DDGOptions) (generated : HMap) (query : String)
    (pageOpt : Option Int) (ro : RunOptions) (rs : List RawResult)
    (hcap : 0 ≤ cfg.maxResultsPerPage) :
    ((rs.length : Int) > cfg.maxResultsPerPage →
       ((tool_run cfg generated (fun _ _ _ => rs) query pageOpt
           ro).results.length : Int) = cfg.maxResultsPerPage ∧
       (tool_run cfg generated (fun _ _ _ => rs) query pageOpt ro).results =
         (rs.take cfg.maxResultsPerPage.toNat).map normalizeResult) ∧
    ((rs.length : Int) ≤ cfg.maxResultsPerPage →
       (tool_run cfg generated (fun _ _ _ => rs) query pageOpt
           ro).results.length = rs.length) := by
  rw [tool_run_results, truncateResults_eq_take _ hcap]
  constructor
  · intro hgt
    have hle : cfg.maxResultsPerPage.toNat ≤ rs.length := by
      have := Int.toNat_of_nonneg hcap
      omega
    constructor
    · rw [List.length_map, List.length_take, min_eq_left hle,
        Int.toNat_of_nonneg hcap]
    · rfl
  · intro hle
    have hlen : rs.length ≤ cfg.maxResultsPerPage.toNat := by
      have := Int.toNat_of_nonneg hcap
      omega
    rw [List.take_of_length_le hlen, List.length_map]

/-- Witness for C1 at a concrete input: a cap of 2 and three raw results. -/
theorem run_truncation_witness :
    (0 : Int) ≤ cfg2.maxResultsPerPage ∧
    (rs3.length : Int) > cfg2.maxResultsPerPage ∧
    ((tool_run cfg2 [] (fun _ _ _ => rs3) "q" none ro0).results.length : Int) =
      cfg2.maxResultsPerPage ∧
    (tool_run cfg2 [] (fun _ _ _ => rs3) "q" none ro0).results =
      (rs3.take cfg2.maxResultsPerPage.toNat).map normalizeResult :=
  ⟨by decide, by decide,
    ((run_truncation cfg2 [] "q" none ro0 rs3 (by decide)).1 (by decide)).1,
    ((run_truncation cfg2 [] "q" none ro0 rs3 (by decide)).1 (by decide)).2⟩

/-- C3: `createSnapshot` returns exactly the `results` field, and
`loadSnapshot` on a fresh instance restores the snapshot's `results`
sequence verbatim (round-trip identity, pure structural copy with no
re-validation or re-normalization). -/
theorem snapshot_roundtrip (o fresh : DuckDuckGoSearchToolOutput)
    (s : Snapshot) :
    createSnapshot o = { results := o.results } ∧
    (loadSnapshot fresh (createSnapshot o)).results = o.results ∧
    (loadSnapshot fresh s).results = s.results :=
  ⟨rfl, rfl, rfl⟩

/-- C4 counterexample: when the throttle policy is absent (not provided),
`_createClient` builds a throttled client with the default policy of 1 call
per 3000 ms, not the unthrottled passthrough. -/
theorem createClient_absent_counterexample :
    createClient .notProvided = .throttled 1 3000 ∧
    createClient .notProvided ≠ .passthrough :=
  ⟨rfl, by decide⟩

/-- C4 (amended): the built client is the unthrottled passthrough exactly
when the throttle policy is explicitly disabled (`false`); when the policy
is absent, a throttle gate with the default limit 1 and interval 3000 ms is
wrapped around the backend. -/
theorem createClient_policy (t : ThrottleConfig) :
    createClient .disabled = .passthrough ∧
    createClient .notProvided = .throttled 1 3000 ∧
    (createClient t = .passthrough ↔ t = .disabled) := by
  refine ⟨rfl, rfl, ?_⟩
  cases t <;> simp [createClient]

/-- C9 counterexample: the constructor accepts a non-positive
`maxResultsPerPage`; a configuration with cap 0 is reachable, so the
invariant cap is greater than 0 does not hold for every reachable
configuration. -/
theorem cap_counterexample :
    (mkDDGOptions [] .notProvided [] (some 0) none none).maxResultsPerPage = 0 ∧
    ¬ ((mkDDGOptions [] .notProvided [] (some 0) none
        none).maxResultsPerPage > 0) :=
  ⟨rfl, by decide⟩

/-- A configuration whose default search options already bind `offset`. -/
def cfgOffset : DDGOptions :=
  { search := [("offset", .num 999)], maxResultsPerPage := 15 }

/-- C2 counterexample: with a configuration-level search option binding
`offset` to 999, the offset sent to the backend for the valid page 1 is
999, not `maxResultsPerPage * (1 - 1) = 0`, because the configuration
search options are spread after the computed defaults. -/
theorem offset_counterexample :
    getLast? (builtSearchOptions cfgOffset 1 ro0) "offset" =
      some (.num 999) ∧
    some (JsVal.num 999) ≠
      some (JsVal.num (cfgOffset.maxResultsPerPage * (1 - 1))) := by
  constructor
  · rfl
  · decide

/-- C2 (amended): for every valid page in [1,10], when neither the
configuration-level nor the per-call search options bind an `offset` key,
the offset included in the search options sent to the Search Backend equals
`maxResultsPerPage * (page - 1)`. -/
theorem offset_sent (cfg : DDGOptions) (page : Int) (ro : RunOptions)
    (h1 : 1 ≤ page) (h10 : page ≤ 10)
    (hc : getLast? cfg.search "offset" = none)
    (hr : getLast? (ro.search.getD []) "offset" = none) :
    getLast? (builtSearchOptions cfg page ro) "offset" =
      some (.num (cfg.maxResultsPerPage * (page - 1))) := by
  unfold builtSearchOptions spread
  rw [getLast?_append, getLast?_append, hc, hr]
  rfl

/-- Witness for C2 (amended) at page 3 with no search-option overrides. -/
theorem offset_sent_witness :
    (1 : Int) ≤ 3 ∧ (3 : Int) ≤ 10 ∧
    getLast? cfg2.search "offset" = none ∧
    getLast? (ro0.search.getD []) "offset" = none ∧
    getLast? (builtSearchOptions cfg2 3 ro0) "offset" =
      some (.num (cfg2.maxResultsPerPage * (3 - 1))) :=
  ⟨by decide, by decide, rfl, rfl,
    offset_sent cfg2 3 ro0 (by decide) (by decide) rfl rfl⟩

/-- C5 counterexample: a page of 11 (outside the domain) is rejected by
the schema with a validation error, not clamped to 10. -/
theorem page_clamp_counterexample :
    parsePage (.num 11) = .error "number_too_big" ∧
    parsePage (.num 11) ≠ .ok (some 10) := by
  constructor
  · rfl
  · intro h
    exact Except.noConfusion ((rfl :
      parsePage (.num 11) = Except.error "number_too_big").symm.trans h)

/-- C5 (amended): the schema coerces page from a string or a number to a
number and accepts exactly the integers in [1,10]: every integer in the
domain passes (string and number forms behave identically), an accepted
page value `n` forces the coerced number to be the integer `n` itself
within [1,10] (so non-integers and out-of-range values are rejected with a
validation error, never rounded or clamped), and when the field is absent
it passes validation and the run uses the default page 1. -/
theorem page_schema (q : Rat) (hint : q.den = 1) (h1 : 1 ≤ q.num)
    (h10 : q.num ≤ 10) :
    parsePage (.num q) = .ok (some q.num) ∧
    parsePage (.strNum q) = .ok (some q.num) ∧
    parsePage .absent = .ok none ∧
    (∀ cfg generated backend query ro,
       tool_run cfg generated backend query none ro =
         tool_run cfg generated backend query (some 1) ro) ∧
    (∀ r : Rat, parsePage (.strNum r) = parsePage (.num r)) ∧
    (∀ r : Rat, r < 1 ∨ 10 < r → ∃ e, parsePage (.num r) = .error e) ∧
    (∀ r : Rat, r.den ≠ 1 → parsePage (.num r) = .error "not_int") ∧
    (∀ (r : Rat) (n : Int), parsePage (.num r) = .ok (some n) →
       r = (n : Rat) ∧ 1 ≤ n ∧ n ≤ 10) := by
  have hok := zodPageChecks_ok q hint h1 h10
  refine ⟨?_, ?_, rfl, fun _ _ _ _ _ => rfl, fun _ => rfl, fun r hr => ?_,
    fun r hr => ?_, fun r n hacc => ?_⟩
  · show (zodPageChecks q).map some = _
    rw [hok]
    rfl
  · show (zodPageChecks q).map some = _
    rw [hok]
    rfl
  · obtain ⟨e, he⟩ := zodPageChecks_isError r hr
    refine ⟨e, ?_⟩
    show (zodPageChecks r).map some = _
    rw [he]
    rfl
  · show (zodPageChecks r).map some = _
    rw [zodPageChecks_nonint r hr]
    rfl
  · have hz : zodPageChecks r = .ok n := by
      cases hzc : zodPageChecks r with
      | error e =>
        have herr : parsePage (.num r) = .error e := by
          show (zodPageChecks r).map some = _
          rw [hzc]
          rfl
        rw [herr] at hacc
        exact Except.noConfusion hacc
      | ok m =>
        have hm : parsePage (.num r) = .ok (some m) := by
          show (zodPageChecks r).map some = _
          rw [hzc]
          rfl
        rw [hm] at hacc
        have hsome : some m = some n := by injection hacc
        have hmn : m = n := by injection hsome
        rw [hmn]
    exact zodPageChecks_complete r n hz

/-- Witness for C5 (amended) at the in-range page 3. -/
theorem page_schema_witness :
    (3 : Rat).den = 1 ∧ 1 ≤ (3 : Rat).num ∧ (3 : Rat).num ≤ 10 ∧
    parsePage (.num 3) = .ok (some (3 : Rat).num) :=
  ⟨by decide, by decide, by decide,
    (page_schema 3 (by decide) (by decide) (by decide)).1⟩

/-- C6: an input whose query is shorter than 1 or longer than 128
characters, or whose page coerces to a number outside [1,10], fails
validation with a `ValidationError` and performs zero outbound calls to the
Search Backend. -/
theorem validation_rejects (cfg : DDGOptions) (generated : HMap)
    (backend : Backend) (raw : RawInput) (ro : RunOptions)
    (h : (∃ s, raw.query = .str s ∧ (s.length < 1 ∨ 128 < s.length)) ∨
         (∃ q, raw.page.toNumber = some q ∧ (q < 1 ∨ 10 < q))) :
    (toolRun cfg generated backend raw ro).2 = 0 ∧
    ∃ msg, (toolRun cfg generated backend raw ro).1 = .validationError msg := by
  obtain ⟨qraw, praw⟩ := raw
  have herr : ∃ e, parseInput ⟨qraw, praw⟩ = .error e := by
    rcases h with ⟨s, hq, hlen⟩ | ⟨q, hp, hrange⟩
    · have hqe : ∃ e, parseQuery qraw = .error e := by
        rw [show qraw = .str s from hq]
        simp only [parseQuery]
        rcases hlen with hlt | hgt
        · rw [if_pos hlt]
          exact ⟨_, rfl⟩
        · rw [if_neg (by omega), if_pos hgt]
          exact ⟨_, rfl⟩
      obtain ⟨e, he⟩ := hqe
      refine ⟨e, ?_⟩
      unfold parseInput
      rw [he]
    · cases hpq : parseQuery qraw with
      | error e =>
        refine ⟨e, ?_⟩
        unfold parseInput
        rw [hpq]
      | ok qq =>
        have hpe : ∃ e, parsePage praw = .error e := by
          cases praw with
          | num r =>
            have hrq : r = q := by simpa [PageRaw.toNumber] using hp
            obtain ⟨e, he⟩ := zodPageChecks_isError r (by rw [hrq]; exact hrange)
            refine ⟨e, ?_⟩
            show (zodPageChecks r).map some = _
            rw [he]
            rfl
          | strNum r =>
            have hrq : r = q := by simpa [PageRaw.toNumber] using hp
            obtain ⟨e, he⟩ := zodPageChecks_isError r (by rw [hrq]; exact hrange)
            refine ⟨e, ?_⟩
            show (zodPageChecks r).map some = _
            rw [he]
            rfl
          | strNaN => exact ⟨"nan", rfl⟩
          | absent => exact Option.noConfusion hp
        obtain ⟨e, he⟩ := hpe
        refine ⟨e, ?_⟩
        unfold parseInput
        rw [hpq, he]
  obtain ⟨e, he⟩ := herr
  unfold toolRun
  rw [he]
  exact ⟨rfl, e, rfl⟩

/-- Witness for C6 at the empty query: validation fails and the backend
call counter stays at zero. -/
theorem validation_rejects_witness :
    ((∃ s, QueryRaw.str "" = QueryRaw.str s ∧ (s.length < 1 ∨ 128 < s.length)) ∨
      (∃ q, (PageRaw.num 1).toNumber = some q ∧ (q < 1 ∨ 10 < q))) ∧
    (toolRun cfg2 [] bk0 ⟨.str "", .num 1⟩ ro0).2 = 0 ∧
    ∃ msg, (toolRun cfg2 [] bk0 ⟨.str "", .num 1⟩ ro0).1 =
      .validationError msg :=
  ⟨Or.inl ⟨"", rfl, Or.inl (by decide)⟩,
    validation_rejects cfg2 [] bk0 ⟨.str "", .num 1⟩ ro0
      (Or.inl ⟨"", rfl, Or.inl (by decide)⟩)⟩

/-- C9 (amended): the results-per-page cap defaults to 15 when not provided
at construction; a provided value is used unchanged, so positivity holds
only when the caller provides a positive value or omits the field. -/
theorem cap_default (search : Obj) (throttle : ThrottleConfig)
    (httpClientOptions : Obj) (apiKey http_proxy_url : Option String)
    (v : Int) :
    (mkDDGOptions search throttle httpClientOptions none apiKey
        http_proxy_url).maxResultsPerPage = 15 ∧
    (mkDDGOptions search throttle httpClientOptions (some v) apiKey
        http_proxy_url).maxResultsPerPage = v :=
  ⟨rfl, rfl⟩

/-- A single raw result carrying markup in its title and description. -/
def rsHtml : List RawResult :=
  [{ title := "<b>Foo</b>", description := "x<i>y</i>", url := "http://u" }]

/-- C7: every raw result retained after truncation is normalized by
stripping markup from its title and description while its url is passed
through unchanged; stripping the markup of `<b>Foo</b>` yields `Foo` with
no markup characters remaining. -/
theorem normalization_strips (cfg : DDGOptions) (generated : HMap)
    (query : String) (pageOpt : Option Int) (ro : RunOptions)
    (rs : List RawResult) (hcap : 0 ≤ cfg.maxResultsPerPage) :
    (tool_run cfg generated (fun _ _ _ => rs) query pageOpt ro).results =
      (rs.take cfg.maxResultsPerPage.toNat).map (fun r =>
        { title := stripHtml r.title
          description := stripHtml r.description
          url := r.url }) ∧
    stripHtml "<b>Foo</b>" = "Foo" ∧
    (∀ c, c ∈ (stripHtml "<b>Foo</b>").data → c ≠ '<' ∧ c ≠ '>') := by
  refine ⟨?_, by decide, by decide⟩
  rw [tool_run_results, truncateResults_eq_take _ hcap]
  rfl

/-- Witness for C7 on a result whose title and description carry markup. -/
theorem normalization_strips_witness :
    (0 : Int) ≤ cfg2.maxResultsPerPage ∧
    (tool_run cfg2 [] (fun _ _ _ => rsHtml) "q" none ro0).results =
      (rsHtml.take cfg2.maxResultsPerPage.toNat).map (fun r =>
        { title := stripHtml r.title
          description := stripHtml r.description
          url := r.url }) :=
  ⟨by decide, (normalization_strips cfg2 [] "q" none ro0 rsHtml (by decide)).1⟩

/-- A configuration with a proxy url. -/
def cfgProxy : DDGOptions :=
  { maxResultsPerPage := 15, http_proxy_url := some "http://proxy.example" }

/-- Per-call HTTP options that try to override the transport agent. -/
def roAgent : RunOptions :=
  { httpClientOptions := some [("agent", .str "customAgent")] }

/-- C8 counterexample: with a proxy url configured, the proxying agent is
assigned into the merged options after the per-call overrides were spread,
so a per-call `agent` value is overwritten by the proxy agent and cannot
override it. -/
theorem http_agent_counterexample :
    getLast? (mergedHttpOptions cfgProxy roAgent) "agent" =
      some (.proxyAgent "http://proxy.example") ∧
    JsVal.proxyAgent "http://proxy.example" ≠ JsVal.str "customAgent" :=
  ⟨rfl, by decide⟩

/-- C8 (amended): HTTP client options are shallow-merged with configuration
defaults first and per-call overrides winning on key collision; if a proxy
url is configured, the proxying transport agent is installed into the
merged options after the merge and therefore overrides any `agent` key
supplied by configuration or per-call options. -/
theorem http_options_merge (cfg : DDGOptions) (ro : RunOptions) (k : String) :
    getLast? (mergedHttpOptions cfg ro) k =
      if h : cfg.http_proxy_url.isSome ∧ k = "agent" then
        some (.proxyAgent (cfg.http_proxy_url.get h.1))
      else
        (getLast? (ro.httpClientOptions.getD []) k).or
          (getLast? cfg.httpClientOptions k) := by
  unfold mergedHttpOptions
  cases hp : cfg.http_proxy_url with
  | none =>
    rw [dif_neg (fun hc => Bool.noConfusion hc.1)]
    exact getLast?_append _ _ _
  | some url =>
    by_cases hk : k = "agent"
    · subst hk
      rw [dif_pos ⟨rfl, rfl⟩]
      exact getLast?_setKey_self _ _ _
    · rw [dif_neg (fun hc => hk hc.2)]
      exact (getLast?_setKey_ne _ _ _ _ hk).trans (getLast?_append _ _ _)

end DDG
